import Mathlib

/-!
Verification development for the libatomic/api request-dispatch library.

The Go source is shallowly embedded: each Go function in scope is translated
into a Lean definition over explicit state records; external collaborators
(the gorilla/schema structural decoder, encoding/json, the blang/semver
parser, the apex/log logger) are modelled as abstract function parameters or,
where their behaviour decides a claim, as small definitions faithful to the
collaborator's documented behaviour (noted at each such definition).
-/

namespace AtomicApi

/-- Association-list model of `net/http` header maps and of `url.Values`.
`hget` returns the first value stored for a key, or "" (Go `Header.Get`). -/
def hget : List (String × String) → String → String
  | [], _ => ""
  | (k', v) :: t, k => if k' = k then v else hget t k

/-- Go `Header.Set`: replace every value for the key with the single value. -/
def hset : List (String × String) → String → String → List (String × String)
  | [], k, v => [(k, v)]
  | (k', v') :: t, k, v => if k' = k then hset t k v else (k', v') :: hset t k v

/-- Go `Header.Add`: append a value for the key. -/
def hadd (hs : List (String × String)) (k v : String) : List (String × String) :=
  hs ++ [(k, v)]

/-- Does the second list occur as a leading segment of the first? -/
def startsWithL : List Char → List Char → Bool
  | _, [] => true
  | [], _ :: _ => false
  | a :: as, b :: bs => (a = b) && startsWithL as bs

/-- Substring occurrence over character lists. -/
def containsL : List Char → List Char → Bool
  | [], sub => sub.isEmpty
  | c :: cs, sub => startsWithL (c :: cs) sub || containsL cs sub

/-- Go `strings.Contains`. -/
def strContains (s sub : String) : Bool :=
  containsL s.data sub.data

/-- Bytes of a Go string, as naturals (code points; faithful enough for the
byte-stream bookkeeping the claims need). -/
def strBytes (s : String) : List Nat :=
  s.data.map Char.toNat

/-- Request contexts as carried by `context.Context` values: an opaque chain
of attached values.  `r.WithContext(ctx)` replaces the whole chain. -/
def GoCtx := List String

instance : DecidableEq GoCtx := by
  unfold GoCtx; infer_instance

/-- The incoming `*http.Request`, restricted to the fields the embedded code
reads.  `basicAuth` is the (already parsed) result of `r.BasicAuth()`;
`ctxVer` models the gorilla/context slot used by the version middleware. -/
structure Request where
  method : String := ""
  vars : List (String × String) := []
  path : String := ""
  headers : List (String × String) := []
  query : List (String × String) := []
  body : Option String := none
  basicAuth : Option (String × String) := none
  ctx : GoCtx := []
  ctxVer : Option String := none
deriving DecidableEq

/-- `r.WithContext(c)` with an authorizer-produced context. -/
def Request.withCtx (r : Request) (c : GoCtx) : Request :=
  { r with ctx := c }

/-- `context.WithValue(r.Context(), key, v)` modelled as pushing a tag onto
the chain (the dispatcher stashes the request object and the logger). -/
def Request.pushCtx (r : Request) (tag : String) : Request :=
  { r with ctx := tag :: r.ctx }

/-- The `http.ResponseWriter` side of a request: headers set so far, the
first status written (`WriteHeader` after the first is ignored, per HTTP
semantics and the wrapped writer in log.go), bytes written directly, and
gzip blocks flushed through a `gzip.Writer` (kept symbolically as the
uncompressed bytes of each flushed block). -/
structure WState where
  headers : List (String × String) := []
  status : Option Nat := none
  plain : List Nat := []
  gzChunks : List (List Nat) := []
deriving DecidableEq

/-- `w.WriteHeader(code)`: only the first call takes effect. -/
def wh (w : WState) (code : Nat) : WState :=
  match w.status with
  | some _ => w
  | none => { w with status := some code }

/-- The body as the client decodes it: directly written bytes, and the
concatenation of the decompressed gzip blocks. -/
def effBody (w : WState) : List Nat :=
  w.plain ++ w.gzChunks.flatten

/-! ## BasicAuthorizer (src/pkg/api/server.go, first snapshot)

`BasicAuthorizer(handler)` returns an `Authorizer` closure.  The user
callback is modelled as a total function returning `(permissions, error)`. -/

/-- The `basicContext` value produced by the basic authorizer. -/
structure BasicCtx where
  username : String
  permissions : List String
deriving DecidableEq

/-- Embedding of `BasicAuthorizer(handler)(r)` from server.go: fail only when
`r.BasicAuth()` does not yield credentials; build the context from the user
name; call the callback; the `if err != nil {}` statement in the source has
an empty body, so the callback's error is discarded and its permissions are
stored unconditionally. -/
def basicAuthorizer (handler : String → String → List String × Option String)
    (r : Request) : Option BasicCtx × Option String :=
  match r.basicAuth with
  | none => (none, some "invalid authorization header")
  | some (u, p) =>
    let ctx : BasicCtx := { username := u, permissions := [] }
    let res := handler u p
    -- if err != nil {} : empty body, error dropped
    let ctx := { ctx with permissions := res.1 }
    (some ctx, none)

/-! ## Version gate (src/pkg/api/version.go)

The blang/semver collaborator is not part of this repository; it is
modelled from the spec's description ("tolerant semantic version: accepts
leading `v`, missing components") for numeric versions: pre-release/build
suffixes are outside the model. -/

/-- A parsed semantic version. -/
structure Semver where
  major : Nat
  minor : Nat
  patch : Nat
deriving DecidableEq

/-- ASCII whitespace, for `strings.TrimSpace`. -/
def isSpaceCh (c : Char) : Bool :=
  c = ' ' ∨ c = '\t' ∨ c = '\n' ∨ c = '\r'

/-- Go `strings.TrimSpace` over character lists. -/
def trimL (cs : List Char) : List Char :=
  ((cs.dropWhile isSpaceCh).reverse.dropWhile isSpaceCh).reverse

/-- Split a character list on a separator character. -/
def splitOnCh (sep : Char) : List Char → List (List Char)
  | [] => [[]]
  | c :: cs =>
    match splitOnCh sep cs with
    | [] => [[c]]
    | h :: t => if c = sep then [] :: h :: t else (c :: h) :: t

/-- Numeric value of a digit string (already checked to be all digits). -/
def natOfDigits (cs : List Char) : Nat :=
  cs.foldl (fun a c => 10 * a + (c.toNat - 48)) 0

/-- Modelled from the spec: the semver collaborator's `ParseTolerant` —
trim spaces, drop one leading "v", split on "."; accept up to three
non-empty numeric components (leading zeros tolerated), pad missing
components with zero.  Pre-release/build suffixes are outside the model
(any non-digit component is rejected). -/
def parseTolerant (s : String) : Option Semver :=
  let cs := trimL s.data
  let cs := if startsWithL cs ['v'] then cs.tail else cs
  let parts := splitOnCh '.' cs
  if parts.length > 3 ∨ parts.any (fun p => p.isEmpty ∨ ¬ p.all Char.isDigit) then
    none
  else
    let n := fun i => ((parts.get? i).map natOfDigits).getD 0
    some ⟨n 0, n 1, n 2⟩

/-- Semver strict order (numeric components; `v.GT(w)`). -/
def Semver.gtv (a b : Semver) : Bool :=
  a.major > b.major ∨
    (a.major = b.major ∧ (a.minor > b.minor ∨ (a.minor = b.minor ∧ a.patch > b.patch)))

/-- Decimal digits of a natural, most significant first (fuel-bounded so the
kernel can evaluate it). -/
def natCharsAux : Nat → Nat → List Char
  | 0, _ => []
  | fuel + 1, n =>
    if n < 10 then [Char.ofNat (48 + n)]
    else natCharsAux fuel (n / 10) ++ [Char.ofNat (48 + n % 10)]

/-- Decimal representation of a natural number. -/
def natChars (n : Nat) : List Char :=
  natCharsAux (n + 1) n

/-- Canonical form (`Version.String()`) of a numeric version. -/
def Semver.str (v : Semver) : String :=
  ⟨natChars v.major ++ '.' :: natChars v.minor ++ '.' :: natChars v.patch⟩

/-- Replace the first occurrence of `pat` (Go `strings.Replace(s, pat, sub, 1)`). -/
def replaceFirstL (pat sub : List Char) : List Char → List Char
  | [] => []
  | c :: cs =>
    if startsWithL (c :: cs) pat then sub ++ (c :: cs).drop pat.length
    else c :: replaceFirstL pat sub cs

/-- Go `strings.Replace(s, pat, sub, 1)` on strings. -/
def replaceFirst (s pat sub : String) : String :=
  ⟨replaceFirstL pat.data sub.data s.data⟩

/-- Server configuration fields read by the version middleware. -/
structure ServerCfg where
  name : String
  version : String
  serverVersion : String
deriving DecidableEq

/-- Embedding of `versionMiddleware` (version.go).  `apiVer` degrades to the
zero version when the configured string does not parse (`apiVer, _ :=
semver.ParseTolerant(s.version)`).  The next stage is an arbitrary handler
function. -/
def versionGate (cfg : ServerCfg) (next : Request → WState → WState)
    (r : Request) (w : WState) : WState :=
  let apiVer := (parseTolerant cfg.version).getD ⟨0, 0, 0⟩
  match (r.vars.find? (fun p => p.1 = "version")) with
  | none => wh w 404
  | some pv =>
    let ver := pv.2
    match parseTolerant ver with
    | none => wh w 404
    | some pathVer =>
      if pathVer.gtv apiVer then
        wh w 404
      else
        let r := { r with
          path := replaceFirst r.path ver pathVer.str,
          ctxVer := some ver }
        let w := { w with
          headers := hset w.headers "Server" (cfg.name ++ "/" ++ cfg.serverVersion) }
        next r w

/-! ## Response model (src/pkg/api/response.go)

Payload values are opaque to the dispatcher; `Write` branches on their
dynamic type.  `[]byte` and `string` are concrete types; the `Encoder` and
`io.Reader` capabilities are interfaces a single value may implement
simultaneously, so they are modelled as optional capabilities of one
constructor.  The `encoding/json` / `encoding/xml` collaborators are
modelled symbolically: a structured value carries the bytes (and possible
error) each encoder would produce for it. -/

/-- A structured (encodable) payload: the outputs the JSON and XML encoder
collaborators produce for it. -/
structure Obj where
  jsonOut : List Nat
  jsonErr : Option String
  xmlOut : List Nat
  xmlErr : Option String
deriving DecidableEq

/-- An `Encoder` capability: `Encode(w)` writes `out` to `w`, then returns
`err`. -/
structure EncBeh where
  out : List Nat
  err : Option String
deriving DecidableEq

/-- A payload value.  `iface` covers every non-`[]byte`, non-`string` value,
with its optional `Encoder` and `io.Reader` capabilities (a reader is the
byte stream it yields), whether it is an `io.Closer`, and its structured
content for the default encoding branch. -/
inductive PayloadVal
  | bytes (b : List Nat)
  | str (s : String)
  | iface (enc : Option EncBeh) (rd : Option (List Nat)) (closeable : Bool) (obj : Obj)
deriving DecidableEq

/-- The `Response` struct: status, payload, header map. -/
structure Response where
  status : Nat
  payload : Option PayloadVal
  header : List (String × String)
deriving DecidableEq

/-- `NewResponse`: status 200, `Content-Type: application/json` pre-set. -/
def newResponse (p : Option PayloadVal) : Response :=
  { status := 200, payload := p, header := hset [] "Content-Type" "application/json" }

/-- `WithStatus`. -/
def Response.withStatus (r : Response) (s : Nat) : Response :=
  { r with status := s }

/-- `WithHeader` (uses `Header.Set`). -/
def Response.withHeader (r : Response) (k v : String) : Response :=
  { r with header := hset r.header k v }

/-- `cast.ToInt64` on a header value: parse an optionally signed decimal,
yielding 0 on any parse failure. -/
def toI64 (s : String) : Int :=
  match s.data with
  | '-' :: ds =>
    if ds ≠ [] ∧ ds.all Char.isDigit then -(natOfDigits ds : Int) else 0
  | ds =>
    if ds ≠ [] ∧ ds.all Char.isDigit then (natOfDigits ds : Int) else 0

/-- The payload type-switch of `Response.Write`: given the output writer's
headers (for `Content-Length`) and the response's own headers (for
`Content-Type`), the bytes written to `out` and the returned error.
Branch order is the source's: `[]byte`, `string`, `Encoder`, `io.Reader`,
default encoding. -/
def writePayload (p : PayloadVal) (whdrs rhdrs : List (String × String)) :
    List Nat × Option String :=
  match p with
  | .bytes b => (b, none)
  | .str s => (strBytes s, none)
  | .iface (some e) _ _ _ => (e.out, e.err)
  | .iface none (some d) _ _ =>
    let l := hget whdrs "Content-Length"
    if l ≠ "" then
      let n := toI64 l
      if n ≤ 0 then ([], none)
      else if (d.length : Int) < n then (d, some "EOF")
      else (d.take n.toNat, none)
    else (d, none)
  | .iface none none _ o =>
    if hget rhdrs "Content-Type" = "application/xml" then (o.xmlOut, o.xmlErr)
    else (o.jsonOut, o.jsonErr)

/-- Embedding of `Response.Write(w, req)`:
1. apply the accumulated headers to the output (`Header.Add` per value);
2. if the request's `Accept-Encoding` contains "gzip", route body bytes
   through a gzip encoder (whose flushed blocks are kept uncompressed in
   `gzChunks`) and set `Content-Encoding: gzip`; the deferred `Flush` runs
   on every exit path, so the block is always appended;
3. nil payload: write only the status line, return success;
4. otherwise write the status line and run the payload type-switch,
   returning its error to the caller (an `io.Closer` payload is closed
   after the attempt; resource release is not observable here). -/
def respWrite (resp : Response) (req : Request) (w0 : WState) :
    WState × Option String :=
  let w := { w0 with
    headers := resp.header.foldl (fun hs kv => hadd hs kv.1 kv.2) w0.headers }
  let gz := strContains (hget req.headers "Accept-Encoding") "gzip"
  let w := if gz then { w with headers := hset w.headers "Content-Encoding" "gzip" } else w
  match resp.payload with
  | none =>
    let w := wh w resp.status
    (if gz then { w with gzChunks := w.gzChunks ++ [[]] } else w, none)
  | some p =>
    let w := wh w resp.status
    let res := writePayload p w.headers resp.header
    let w :=
      if gz then { w with gzChunks := w.gzChunks ++ [res.1] }
      else { w with plain := w.plain ++ res.1 }
    (w, res.2)

/-! ## Error responses (src/pkg/api/error.go, src/unnamed/part_000) -/

/-- The bytes `json.NewEncoder(w).Encode` produces for the error body
`struct{ Message string }{msg}`. -/
def jsonMsgBytes (m : String) : List Nat :=
  strBytes ("\x7b\"message\":\"" ++ m ++ "\"\x7d\n")

/-- The structured content of the `struct{ Message string }` error payload. -/
def msgObj (m : String) : Obj :=
  { jsonOut := jsonMsgBytes m, jsonErr := none,
    xmlOut := strBytes ("<Message>" ++ m ++ "</Message>"), xmlErr := none }

/-- The error payload value (a plain struct: no special capabilities). -/
def msgPayload (m : String) : PayloadVal :=
  .iface none none false (msgObj m)

/-- A Go `error` value as seen through `errors.As`: whether it (or something
in its chain) implements `Responder`, and its message. -/
structure GoErr where
  asResponder : Option Response := none
  msg : String := ""
deriving DecidableEq

/-- Embedding of `Error(e)` from error.go: a `Responder` in the error chain
keeps its payload and status; anything else becomes a 500 with the
`{"message": ...}` payload. -/
def errorToResponse (e : GoErr) : Response :=
  match e.asResponder with
  | some r => (newResponse r.payload).withStatus r.status
  | none => (newResponse (some (msgPayload e.msg))).withStatus 500

/-- `Server.WriteError` → `WriteJSON`: set `Content-Type`, write the status,
emit the `{"message": ...}` JSON body (no gzip on this path). -/
def writeError (w : WState) (status : Nat) (msg : String) : WState :=
  let w := { w with headers := hset w.headers "Content-Type" "application/json" }
  let w := wh w status
  { w with plain := w.plain ++ jsonMsgBytes msg }

/-! ## Dispatcher (src/unnamed/part_000, `AddRoute`)

The per-request closure registered by `AddRoute`, with its collaborators
abstract: authorizers are arbitrary functions (a `nil` function value in the
slice is `Option.none`), the gorilla/schema structural decoder and the JSON
body unmarshal are arbitrary fallible functions over an opaque bound-value
carrier, and the handler is one of the three accepted shapes. -/

/-- Carrier for the route's parameter-destination value. -/
def ParamsV := List (String × String)

instance : DecidableEq ParamsV := by
  unfold ParamsV; infer_instance

/-- An `Authorizer`: returns `(context, error)`. -/
def Authorizer := Request → Option GoCtx × Option String

/-- Outcome of the authorizer loop. -/
inductive AuthOutcome
  | ok (r : Request)
  | denied (e : String)
  | panicked
deriving DecidableEq

/-- The `for _, a := range opt.authorizers` loop body: call the authorizer;
an error short-circuits; a non-nil returned context replaces the request's
context before the next authorizer runs.  Invoking a `nil` function value
panics. -/
def runAuths : List (Option Authorizer) → Request → AuthOutcome
  | [], r => .ok r
  | none :: _, _ => .panicked
  | some a :: rest, r =>
    match a r with
    | (_, some e) => .denied e
    | (some c, none) => runAuths rest (r.withCtx c)
    | (none, none) => runAuths rest r

/-- The external decoding collaborators of the generic binding path:
`gorilla/schema`'s `Decode` (alias tag `json`, unknown keys ignored),
`json.Unmarshal`, and `Request.ParseForm`. -/
structure Decoders where
  decode : ParamsV → List (String × String) → Except String ParamsV
  junmarshal : ParamsV → String → Except String ParamsV
  parseForm : String → Except String (List (String × String))

/-- The route's parameter destination: a type implementing the `Parameters`
self-binding capability, a plain value decoded generically, or `nil`. -/
inductive ParamsDest
  | selfBinder (bind : Request → Except String ParamsV)
  | generic (p0 : ParamsV)
  | nilDest

/-- The generic structural binding steps of `AddRoute`, in source order:
path variables (when any), then the query string (when non-empty), then the
body — `json.Unmarshal` of the whole body when `Content-Type` is
`application/json`, `ParseForm` plus the structural decoder when it is
`application/x-www-form-urlencoded`, nothing otherwise.  The first error
aborts. -/
def bindGeneric (dec : Decoders) (r : Request) (p0 : ParamsV) :
    Except String ParamsV := do
  let p ← if r.vars ≠ [] then dec.decode p0 r.vars else .ok p0
  let p ← if r.query ≠ [] then dec.decode p r.query else .ok p
  match r.body with
  | none => .ok p
  | some b =>
    if hget r.headers "Content-Type" = "application/json" then
      dec.junmarshal p b
    else if hget r.headers "Content-Type" = "application/x-www-form-urlencoded" then do
      let fv ← dec.parseForm b
      dec.decode p fv
    else .ok p

/-- Parameter binding for a destination: self-binders are delegated to
entirely; generic destinations run `bindGeneric`; a `nil` destination
yields the zero value (`none`) for the reflective call. -/
def bindOf (dest : ParamsDest) (dec : Decoders) (r : Request) :
    Except String (Option ParamsV) :=
  match dest with
  | .selfBinder sb => (sb r).map some
  | .generic p0 => (bindGeneric dec r p0).map some
  | .nilDest => .ok none

/-- The dynamic value a handler returned (`resp interface{}`), as seen by
the deferred type switch: its `Responder` view if it implements the
interface, its `error` view otherwise. -/
structure DynValue where
  asResponder : Option Response := none
  asError : Option String := none
deriving DecidableEq

/-- The deferred finalization of `AddRoute`: a `Responder` is written — the
package's `Response.Write` standing in for the `Responder` capability, with
the request passed for its content negotiation — and a write failure
becomes a logged 500; a plain `error` becomes a 500; any other value (or no
value) is left alone. -/
def finalize (resp : Option DynValue) (req : Request) (w : WState) : WState :=
  match resp with
  | none => w
  | some v =>
    match v.asResponder with
    | some rp =>
      match respWrite rp req w with
      | (w', some e) => writeError w' 500 e
      | (w', none) => w'
    | none =>
      match v.asError with
      | some e => writeError w 500 e
      | none => w

/-- The three accepted handler shapes of `AddRoute`, resolved as in the
source: `func(w, r) Responder`, `func(w, r)`, and the reflective shape
(optional leading `context.Context` argument, optional parameter argument,
optional returned value). -/
inductive PHandler
  | respHandler (h : Request → WState → WState × DynValue)
  | rawHandler (h : Request → WState → WState)
  | reflective (takesCtx takesParams : Bool)
      (h : Option GoCtx → Option ParamsV → Option DynValue)

/-- The context values stashed before dispatch: the request/writer pair, the
logger, then the route's optional context-augmentation function. -/
def ctxSetup (contextFunc : Option (GoCtx → GoCtx)) (r : Request) : Request :=
  let r := r.pushCtx "request"
  let r := r.pushCtx "logger"
  match contextFunc with
  | some f => { r with ctx := f r.ctx }
  | none => r

/-- Handler-shape dispatch and finalization (the part of the closure after
the authorizer loop and context setup). -/
def dispatchPhase (dest : ParamsDest) (dec : Decoders) (handler : PHandler)
    (r : Request) (w : WState) : WState :=
  match handler with
  | .respHandler h =>
    let res := h r w
    finalize (some res.2) r res.1
  | .rawHandler h => h r w
  | .reflective tc tp h =>
    match bindOf dest dec r with
    | .error e => writeError w 400 e
    | .ok pv =>
      let v := h (if tc then some r.ctx else none) (if tp then pv else none)
      finalize v r w

/-- Result of serving one request through the registered closure. -/
inductive ServeOut
  | done (w : WState)
  | panicked (w : WState)
deriving DecidableEq

/-- The authorizer step of the closure, guarded as in the source by
`len(opt.authorizers) > 0 && opt.authorizers[0] != nil`. -/
def authPhase (auths : List (Option Authorizer)) (r : Request) : AuthOutcome :=
  match auths with
  | [] => .ok r
  | a0 :: _ => if a0.isSome then runAuths auths r else .ok r

/-- The closure body: guarded authorizer loop, then context setup, then
handler-shape dispatch. -/
def serveRoute (auths : List (Option Authorizer))
    (contextFunc : Option (GoCtx → GoCtx)) (dest : ParamsDest)
    (dec : Decoders) (handler : PHandler) (r : Request) (w : WState) :
    ServeOut :=
  match authPhase auths r with
  | .panicked => .panicked w
  | .denied e => .done (writeError w 401 e)
  | .ok r1 => .done (dispatchPhase dest dec handler (ctxSetup contextFunc r1) w)

/-! ## Request logger middleware (src/pkg/api/log.go) -/

/-- Log levels of the logger collaborator. -/
inductive Level
  | debug
  | info
  | error
  | fatal
deriving DecidableEq

/-- A structured log record: level, message, and whether it carries the
`trace` field holding `debug.Stack()`. -/
structure LogEntry where
  level : Level
  msg : String
  hasTrace : Bool
deriving DecidableEq

/-- The wrapping `responseWriter` of log.go over the real writer: it records
the first status code and ignores later `WriteHeader` calls. -/
structure WrappedW where
  under : WState
  status : Nat := 0
  wroteHeader : Bool := false
deriving DecidableEq

/-- `responseWriter.WriteHeader`. -/
def WrappedW.writeHeader (rw : WrappedW) (code : Nat) : WrappedW :=
  if rw.wroteHeader then rw
  else { under := wh rw.under code, status := code, wroteHeader := true }

/-- Downstream handling either completes or panics, leaving the writer in
some state. -/
inductive DownResult
  | ok (w : WrappedW)
  | panicked (w : WrappedW) (msg : String)
deriving DecidableEq

/-- The middleware's result: a normal completion with the final writer state
and the emitted log records, or a propagated panic. -/
inductive MWResult
  | ok (w : WState) (entries : List LogEntry)
  | panicked (w : WState) (msg : String)
deriving DecidableEq

/-- Embedding of `logMiddleware`: wrap the writer, run downstream, and
either recover from a panic — `WriteHeader(500)` on the real writer, then
the apex/log collaborator's `Trace("Fatal http error")` /
`WithField("trace", stack)` / `Stop(nil)` sequence, which logs the message
at info level and logs completion (carrying the trace field) at info level
(modelled from the apex/log collaborator: `Trace` and a nil-error `Stop`
emit at info, not fatal) — or, on normal completion, emit the debug-level
`"<METHOD> <path>"` record. -/
def logMiddleware (next : Request → WrappedW → DownResult) (r : Request)
    (w : WState) : MWResult :=
  match next r { under := w } with
  | .panicked ws _ =>
    let w2 := wh ws.under 500
    .ok w2
      [ { level := .info, msg := "Fatal http error", hasTrace := false },
        { level := .info, msg := "Fatal http error", hasTrace := true } ]
  | .ok ws =>
    .ok ws.under
      [ { level := .debug, msg := r.method ++ " " ++ r.path, hasTrace := false } ]

/-! ## Builder scripts over a Response (for the finalization invariant) -/

/-- A pre- or post-finalization builder call. -/
inductive ROp
  | wstatus (c : Nat)
  | wheader (k v : String)
deriving DecidableEq

/-- Apply a sequence of builder calls to a response. -/
def applyOps : Response → List ROp → Response
  | r, [] => r
  | r, .wstatus c :: t => applyOps (r.withStatus c) t
  | r, .wheader _k v :: t => applyOps (r.withHeader _k v) t

/-- The last status a script sets, if any. -/
def lastStatus : List ROp → Option Nat
  | [] => none
  | op :: t =>
    match lastStatus t with
    | some c => some c
    | none =>
      match op with
      | .wstatus c => some c
      | _ => none

/-- The last value a script sets for a given header key, if any. -/
def lastHeaderVal (k : String) : List ROp → Option String
  | [] => none
  | op :: t =>
    match lastHeaderVal k t with
    | some v => some v
    | none =>
      match op with
      | .wheader k' v => if k' = k then some v else none
      | _ => none

/-- One consumption of a response, as the dispatcher performs it: builder
calls before `Write`, the single finalizing `Write`, then any further
builder calls.  Yields the written output and the response value left
behind. -/
def runScript (r0 : Response) (pre post : List ROp) (req : Request)
    (w : WState) : (WState × Option String) × Response :=
  let r1 := applyOps r0 pre
  (respWrite r1 req w, applyOps r1 post)

/-! ## Helper lemmas -/

theorem hget_hset_self (hs : List (String × String)) (k v : String) :
    hget (hset hs k v) k = v := by
  induction hs with
  | nil => simp [hget, hset]
  | cons h t ih =>
    obtain ⟨k', v'⟩ := h
    by_cases hk : k' = k
    · simpa [hset, hk] using ih
    · simpa [hset, hget, hk] using ih

theorem hget_hset_other (hs : List (String × String)) (k k' v : String)
    (hne : k' ≠ k) : hget (hset hs k' v) k = hget hs k := by
  induction hs with
  | nil => simp [hget, hset, hne]
  | cons h t ih =>
    obtain ⟨k0, v0⟩ := h
    by_cases hk : k0 = k'
    · have hnk : ¬ k0 = k := by rw [hk]; exact hne
      simpa [hset, hget, hk, hnk, hne] using ih
    · by_cases hkk : k0 = k
      · simp [hset, hget, hk, hkk, Ne.symm hne]
      · simpa [hset, hget, hk, hkk] using ih

theorem applyOps_status (ops : List ROp) (r : Response) :
    (applyOps r ops).status = (lastStatus ops).getD r.status := by
  induction ops generalizing r with
  | nil => simp [applyOps, lastStatus]
  | cons op t ih =>
    cases op with
    | wstatus c =>
      simp only [applyOps, lastStatus]
      rw [ih]
      cases lastStatus t <;> simp [Response.withStatus]
    | wheader k v =>
      simp only [applyOps, lastStatus]
      rw [ih]
      cases lastStatus t <;> simp [Response.withHeader]

theorem applyOps_hget (ops : List ROp) (r : Response) (k : String) :
    hget (applyOps r ops).header k = (lastHeaderVal k ops).getD (hget r.header k) := by
  induction ops generalizing r with
  | nil => simp [applyOps, lastHeaderVal]
  | cons op t ih =>
    cases op with
    | wstatus c =>
      simp only [applyOps, lastHeaderVal]
      rw [ih]
      cases lastHeaderVal k t <;> simp [Response.withStatus]
    | wheader k' v =>
      simp only [applyOps, lastHeaderVal]
      rw [ih]
      cases hlv : lastHeaderVal k t with
      | some w => simp
      | none =>
        by_cases hk : k' = k
        · simp [hk, Response.withHeader, hget_hset_self]
        · simp [hk, Response.withHeader, hget_hset_other _ _ _ _ hk]

/-! ## Claim theorems -/

theorem writePayload_ce (p : PayloadVal) (whdrs rhdrs : List (String × String))
    (v : String) :
    writePayload p (hset whdrs "Content-Encoding" v) rhdrs = writePayload p whdrs rhdrs := by
  cases p with
  | bytes b => rfl
  | str s => rfl
  | iface enc rd cl o =>
    cases enc with
    | some e => rfl
    | none =>
      cases rd with
      | some d =>
        have h := hget_hset_other whdrs "Content-Length" "Content-Encoding" v (by decide)
        simp [writePayload, h]
      | none => rfl

theorem respWrite_status (resp : Response) (req : Request) (w0 : WState)
    (hst : w0.status = none) :
    (respWrite resp req w0).1.status = some resp.status := by
  cases hc : strContains (hget req.headers "Accept-Encoding") "gzip" <;>
    cases hp : resp.payload <;>
      simp [respWrite, hc, hp, wh, hst]

theorem respWrite_some (resp : Response) (req : Request) (w0 : WState)
    (p : PayloadVal) (hp : resp.payload = some p) (hgz : w0.gzChunks = []) :
    (respWrite resp req w0).2
      = (writePayload p (respWrite resp req w0).1.headers resp.header).2
    ∧ effBody (respWrite resp req w0).1
      = effBody w0 ++ (writePayload p (respWrite resp req w0).1.headers resp.header).1 := by
  cases hc : strContains (hget req.headers "Accept-Encoding") "gzip" <;>
    cases hst : w0.status <;>
      simp [respWrite, hc, hp, wh, hst, effBody, hgz]

/-- C10: the authorizer returned by `BasicAuthorizer` fails only when the
request lacks parseable Basic credentials; an error from the user callback
is discarded, so any request with well-formed Basic credentials — valid or
not — is authorized with a context carrying the supplied user name and
whatever permissions the callback returned. -/
theorem c10_basic_authorizer_ignores_callback_error
    (handler : String → String → List String × Option String) (r : Request) :
    (r.basicAuth = none →
      basicAuthorizer handler r = (none, some "invalid authorization header"))
    ∧ (∀ u p, r.basicAuth = some (u, p) →
      basicAuthorizer handler r =
        (some { username := u, permissions := (handler u p).1 }, none)) := by
  constructor
  · intro h
    simp [basicAuthorizer, h]
  · intro u p h
    simp [basicAuthorizer, h]

/-- Witness for C10: a callback that rejects the credentials with an error
still yields a successful authorization carrying its permissions. -/
theorem c10_witness :
    basicAuthorizer (fun _ _ => (["read"], some "invalid credentials"))
        { basicAuth := some ("alice", "pw") } =
      (some { username := "alice", permissions := ["read"] }, none) :=
  (c10_basic_authorizer_ignores_callback_error
    (fun _ _ => (["read"], some "invalid credentials"))
    { basicAuth := some ("alice", "pw") }).2 "alice" "pw" rfl

/-- C5: before `Write`, a builder script leaves exactly the last status set
and, per header key, the last value set; builder calls after the single
finalizing `Write` have no effect on what was written. -/
theorem c5_builder_last_wins (r0 : Response) (pre post post' : List ROp)
    (req : Request) (w : WState) (k : String) :
    (runScript r0 pre post req w).1 = (runScript r0 pre post' req w).1
    ∧ (applyOps r0 pre).status = (lastStatus pre).getD r0.status
    ∧ hget (applyOps r0 pre).header k = (lastHeaderVal k pre).getD (hget r0.header k) :=
  ⟨rfl, applyOps_status pre r0, applyOps_hget pre r0 k⟩

/-- Counterexample for C2 as stated: with versioning configured as
`WithVersioning("1.2.0", "9.9.9")` the accepted request gets a
`Server: Atomic/9.9.9` header — the separately configured server-version
string — not `Server: <name>/<version> = Atomic/1.2.0`. -/
theorem c2_counterexample :
    hget (versionGate ⟨"Atomic", "1.2.0", "9.9.9"⟩ (fun _ w => w)
        { vars := [("version", "1.0.0")], path := "/api/1.0.0/widgets" } {}).headers
      "Server" = "Atomic/9.9.9"
    ∧ ("Atomic/9.9.9" : String) ≠ "Atomic/1.2.0" := by
  constructor
  · decide
  · decide

/-- C2 (amended): the version gate responds 404 — never invoking the next
stage — when the `version` path variable is absent, unparsable, or strictly
greater than the configured version; otherwise it rewrites the raw token to
the canonical parsed form (e.g. "v1" to "1.0.0"), records the accepted
version on the request context, sets a `Server: <name>/<serverVersion>`
header (serverVersion defaults to the configured version when not given
separately), and runs the next stage. -/
theorem c2_version_gate_amended (cfg : ServerCfg)
    (next next' : Request → WState → WState) (r : Request) (w : WState) :
    (r.vars.find? (fun p => p.1 = "version") = none →
      versionGate cfg next r w = wh w 404
      ∧ versionGate cfg next r w = versionGate cfg next' r w)
    ∧ (∀ pv, r.vars.find? (fun p => p.1 = "version") = some pv →
        parseTolerant pv.2 = none →
        versionGate cfg next r w = wh w 404
        ∧ versionGate cfg next r w = versionGate cfg next' r w)
    ∧ (∀ pv ver, r.vars.find? (fun p => p.1 = "version") = some pv →
        parseTolerant pv.2 = some ver →
        ver.gtv ((parseTolerant cfg.version).getD ⟨0, 0, 0⟩) = true →
        versionGate cfg next r w = wh w 404
        ∧ versionGate cfg next r w = versionGate cfg next' r w)
    ∧ (∀ pv ver, r.vars.find? (fun p => p.1 = "version") = some pv →
        parseTolerant pv.2 = some ver →
        ver.gtv ((parseTolerant cfg.version).getD ⟨0, 0, 0⟩) = false →
        versionGate cfg next r w =
          next { r with path := replaceFirst r.path pv.2 ver.str,
                        ctxVer := some pv.2 }
               { w with headers := hset w.headers "Server"
                          (cfg.name ++ "/" ++ cfg.serverVersion) })
    ∧ parseTolerant "v1" = some ⟨1, 0, 0⟩
    ∧ Semver.str ⟨1, 0, 0⟩ = "1.0.0" := by
  refine ⟨?_, ?_, ?_, ?_, by decide, by decide⟩
  · intro h
    constructor <;> simp [versionGate, h]
  · intro pv h hp
    constructor <;> simp [versionGate, h, hp]
  · intro pv ver h hp hgt
    constructor <;> simp [versionGate, h, hp, hgt]
  · intro pv ver h hp hgt
    simp [versionGate, h, hp, hgt]

/-- Witness for C2 (amended): server version 1.2.0 — a path version 2.0.0
is rejected with 404, and a path version 1.0.0 is accepted and canonically
rewritten. -/
theorem c2_witness :
    versionGate ⟨"Atomic", "1.2.0", "1.2.0"⟩ (fun _ w => w)
        { vars := [("version", "2.0.0")], path := "/api/2.0.0/w" } {} = wh {} 404
    ∧ versionGate ⟨"Atomic", "1.2.0", "1.2.0"⟩ (fun r w => { w with plain := strBytes r.path })
        { vars := [("version", "v1")], path := "/api/v1/w" } {} =
      { headers := hset {} "Server" "Atomic/1.2.0",
        plain := strBytes "/api/1.0.0/w" } := by
  constructor
  · exact ((c2_version_gate_amended ⟨"Atomic", "1.2.0", "1.2.0"⟩ (fun _ w => w)
      (fun _ w => w) { vars := [("version", "2.0.0")], path := "/api/2.0.0/w" } {}).2.2.1
      ("version", "2.0.0") ⟨2, 0, 0⟩ (by decide) (by decide) (by decide)).1
  · have h := (c2_version_gate_amended ⟨"Atomic", "1.2.0", "1.2.0"⟩
      (fun r w => { w with plain := strBytes r.path }) (fun _ w => w)
      { vars := [("version", "v1")], path := "/api/v1/w" } {}).2.2.2.1
      ("version", "v1") ⟨1, 0, 0⟩ (by decide) (by decide) (by decide)
    rw [h]
    decide

/-- C1: authorizers run in declared order, each non-nil returned context is
attached to the request before the next authorizer (or the handler) runs,
and the first authorizer error yields a 401 response and stops the pipeline
— the outcome is independent of the parameter destination, the decoders,
the context function and the handler, so binding is never performed and the
handler is never invoked; on authorizer success the dispatch phase receives
exactly the context-threaded request. -/
theorem c1_authorizer_short_circuit :
    (∀ (auths : List (Option Authorizer)) (r : Request) (e : String),
      runAuths auths r = .denied e →
      ∀ cf cf' dest dest' dec dec' h h' w,
        serveRoute auths cf dest dec h r w = .done (writeError w 401 e)
        ∧ serveRoute auths cf dest dec h r w = serveRoute auths cf' dest' dec' h' r w)
    ∧ (∀ (a : Authorizer) (rest : List (Option Authorizer)) (r : Request),
        runAuths (some a :: rest) r =
          match a r with
          | (_, some e) => .denied e
          | (some c, none) => runAuths rest (r.withCtx c)
          | (none, none) => runAuths rest r)
    ∧ (∀ auths cf dest dec h (r r2 : Request) w,
        authPhase auths r = .ok r2 →
        serveRoute auths cf dest dec h r w =
          .done (dispatchPhase dest dec h (ctxSetup cf r2) w)) := by
  refine ⟨?_, ?_, ?_⟩
  · intro auths r e hfail cf cf' dest dest' dec dec' h h' w
    match auths with
    | [] => simp [runAuths] at hfail
    | none :: rest => simp [runAuths] at hfail
    | some a :: rest =>
      have hA : authPhase (some a :: rest) r = .denied e := by
        simp [authPhase, hfail]
      constructor <;> simp [serveRoute, hA]
  · intro a rest r
    rfl
  · intro auths cf dest dec h r r2 w hA
    simp [serveRoute, hA]

/-- Witness for C1: the first authorizer attaches a context, the second —
seeing that context — denies; the route responds 401 regardless of the
handler and decoders. -/
theorem c1_witness :
    serveRoute
      [some (fun r => (some ("u" :: r.ctx), none)),
       some (fun r => (none, some ("no:" ++ hget r.vars "id")))]
      none ParamsDest.nilDest
      ⟨fun p _ => .ok p, fun p _ => .ok p, fun _ => .ok []⟩
      (.reflective true true (fun _ _ => none))
      { vars := [("id", "7")] } {} =
    .done (writeError {} 401 "no:7") :=
  ((c1_authorizer_short_circuit.1
    [some (fun r => (some ("u" :: r.ctx), none)),
     some (fun r => (none, some ("no:" ++ hget r.vars "id")))]
    { vars := [("id", "7")] } "no:7" (by decide)
    none none ParamsDest.nilDest ParamsDest.nilDest
    ⟨fun p _ => .ok p, fun p _ => .ok p, fun _ => .ok []⟩
    ⟨fun p _ => .ok p, fun p _ => .ok p, fun _ => .ok []⟩
    (.reflective true true (fun _ _ => none))
    (.reflective true true (fun _ _ => none)) {}).1)

/-- C3: a self-binding destination is delegated to entirely (the generic
decoders are never consulted); otherwise generic binding decodes path
variables, then the query string, then the body (JSON unmarshal for
`application/json`, form decode for `application/x-www-form-urlencoded`),
in that order; a binding error at any step yields a 400 response and the
handler is never invoked. -/
theorem c3_parameter_binding :
    (∀ auths cf sb dec dec' h (r : Request) w,
      serveRoute auths cf (.selfBinder sb) dec h r w
        = serveRoute auths cf (.selfBinder sb) dec' h r w)
    ∧ (∀ dec (r : Request) p0, bindGeneric dec r p0 = do
        let p ← if r.vars ≠ [] then dec.decode p0 r.vars else .ok p0
        let p ← if r.query ≠ [] then dec.decode p r.query else .ok p
        match r.body with
        | none => .ok p
        | some b =>
          if hget r.headers "Content-Type" = "application/json" then
            dec.junmarshal p b
          else if hget r.headers "Content-Type" = "application/x-www-form-urlencoded" then do
            let fv ← dec.parseForm b
            dec.decode p fv
          else .ok p)
    ∧ (∀ auths cf dest dec tc tp h h' (r r1 : Request) e w,
        authPhase auths r = .ok r1 →
        bindOf dest dec (ctxSetup cf r1) = .error e →
        serveRoute auths cf dest dec (.reflective tc tp h) r w = .done (writeError w 400 e)
        ∧ serveRoute auths cf dest dec (.reflective tc tp h) r w
            = serveRoute auths cf dest dec (.reflective tc tp h') r w) := by
  refine ⟨?_, ?_, ?_⟩
  · intro auths cf sb dec dec' h r w
    unfold serveRoute
    cases authPhase auths r with
    | panicked => rfl
    | denied e => rfl
    | ok r1 =>
      cases h with
      | respHandler h => rfl
      | rawHandler h => rfl
      | reflective tc tp h => rfl
  · intro dec r p0
    rfl
  · intro auths cf dest dec tc tp h h' r r1 e w hA hB
    constructor <;> simp [serveRoute, hA, dispatchPhase, hB]

/-- Witness for C3: a failing self-binder aborts with 400 before the
handler runs. -/
theorem c3_witness :
    serveRoute [] none (.selfBinder (fun _ => .error "field required"))
      ⟨fun p _ => .ok p, fun p _ => .ok p, fun _ => .ok []⟩
      (.reflective true true (fun _ _ => none)) {} {} =
    .done (writeError {} 400 "field required") :=
  ((c3_parameter_binding.2.2 [] none (.selfBinder (fun _ => .error "field required"))
    ⟨fun p _ => .ok p, fun p _ => .ok p, fun _ => .ok []⟩
    true true (fun _ _ => none) (fun _ _ => none) {} {} "field required" {}
    rfl rfl).1)

/-- C4: at finalization, a handler-returned error value that implements
`Responder` is written with its own status and payload (the write is fully
delegated to it, its status becoming the response status); a plain error
value becomes a 500 whose entire body is the JSON object
`{"message": "<text>"}` — and likewise `Error(e)` from error.go keeps a
responder-error's status/payload verbatim and otherwise builds a 500 with
exactly the message payload, so no stack trace or internal detail reaches
the client. -/
theorem c4_error_translation :
    (∀ (rp : Response) (verr : Option String) (req : Request) (w : WState),
        finalize (some ⟨some rp, verr⟩) req w =
          (match respWrite rp req w with
           | (w', none) => w'
           | (w', some e) => writeError w' 500 e)
        ∧ (w.status = none → (respWrite rp req w).1.status = some rp.status))
    ∧ (∀ e (req : Request) (w : WState),
        finalize (some ⟨none, some e⟩) req w = writeError w 500 e)
    ∧ (∀ (w : WState) status e,
        (writeError w status e).plain = w.plain ++ jsonMsgBytes e
        ∧ (w.status = none → (writeError w status e).status = some status))
    ∧ (∀ ge rp, ge.asResponder = some rp →
        (errorToResponse ge).status = rp.status
        ∧ (errorToResponse ge).payload = rp.payload)
    ∧ (∀ ge, ge.asResponder = none →
        (errorToResponse ge).status = 500
        ∧ (errorToResponse ge).payload = some (msgPayload ge.msg))
    ∧ (∀ m whdrs, writePayload (msgPayload m) whdrs (errorToResponse ⟨none, m⟩).header
        = (jsonMsgBytes m, none)) := by
  refine ⟨?_, ?_, ?_, ?_, ?_, ?_⟩
  · intro rp verr req w
    refine ⟨?_, fun hst => respWrite_status rp req w hst⟩
    simp only [finalize]
    rcases respWrite rp req w with ⟨w', e⟩
    cases e <;> rfl
  · intro e req w
    rfl
  · intro w status e
    constructor
    · cases hst : w.status <;> simp [writeError, wh, hst]
    · intro hst
      simp [writeError, wh, hst]
  · intro ge rp h
    simp [errorToResponse, h, newResponse, Response.withStatus]
  · intro ge h
    simp [errorToResponse, h, newResponse, Response.withStatus]
  · intro m whdrs
    rfl

/-- Witness for C4: a responder-style error with status 404 has that status
honored at finalization, and a plain error produces exactly the JSON
message body with status 500. -/
theorem c4_witness :
    (respWrite ((newResponse (some (.str "no"))).withStatus 404) {} {}).1.status = some 404
    ∧ (writeError {} 500 "boom").plain = jsonMsgBytes "boom"
    ∧ (writeError {} 500 "boom").status = some 500 := by
  refine ⟨?_, ?_, ?_⟩
  · exact (c4_error_translation.1 ((newResponse (some (.str "no"))).withStatus 404)
      none {} {}).2 rfl
  · exact (c4_error_translation.2.2.1 {} 500 "boom").1
  · exact (c4_error_translation.2.2.1 {} 500 "boom").2 rfl

/-- C6: `Write` branches on a non-nil payload in source order — raw bytes
verbatim; a string verbatim as bytes; a self-encoding value delegated to
entirely (its bytes and error, regardless of any reader capability or
content type); a readable stream copied in full absent `Content-Length`
and for exactly that many bytes when the header is present (a short stream
surfaces the copy error); anything else serialized as XML when the declared
`Content-Type` is `application/xml` and as JSON otherwise — and the branch
error is returned to the caller, the written body being exactly the branch
output. -/
theorem c6_payload_precedence :
    (∀ b whdrs rhdrs, writePayload (.bytes b) whdrs rhdrs = (b, none))
    ∧ (∀ s whdrs rhdrs, writePayload (.str s) whdrs rhdrs = (strBytes s, none))
    ∧ (∀ e rd cl o whdrs rhdrs,
        writePayload (.iface (some e) rd cl o) whdrs rhdrs = (e.out, e.err))
    ∧ (∀ d cl o whdrs rhdrs, hget whdrs "Content-Length" = "" →
        writePayload (.iface none (some d) cl o) whdrs rhdrs = (d, none))
    ∧ (∀ d cl o whdrs rhdrs (n : Nat), hget whdrs "Content-Length" ≠ "" →
        toI64 (hget whdrs "Content-Length") = (n : Int) → 0 < n →
        writePayload (.iface none (some d) cl o) whdrs rhdrs =
          (if d.length < n then (d, some "EOF") else (d.take n, none)))
    ∧ (∀ cl o whdrs rhdrs, writePayload (.iface none none cl o) whdrs rhdrs =
        (if hget rhdrs "Content-Type" = "application/xml" then (o.xmlOut, o.xmlErr)
         else (o.jsonOut, o.jsonErr)))
    ∧ (∀ resp (req : Request) (w0 : WState) p, resp.payload = some p →
        w0.gzChunks = [] →
        (respWrite resp req w0).2
          = (writePayload p (respWrite resp req w0).1.headers resp.header).2
        ∧ effBody (respWrite resp req w0).1
          = effBody w0 ++ (writePayload p (respWrite resp req w0).1.headers resp.header).1) := by
  refine ⟨fun _ _ _ => rfl, fun _ _ _ => rfl, fun _ _ _ _ _ _ => rfl, ?_, ?_,
    fun _ _ _ _ => rfl, ?_⟩
  · intro d cl o whdrs rhdrs h
    simp [writePayload, h]
  · intro d cl o whdrs rhdrs n h1 h2 h3
    have hpos : (0 : Int) < (n : Int) := by exact_mod_cast h3
    have hn0 : ¬ ((n : Int) ≤ 0) := not_le.mpr hpos
    simp [writePayload, h1, h2, hn0, Int.toNat_ofNat, Nat.cast_lt]
  · intro resp req w0 p hp hgz
    exact respWrite_some resp req w0 p hp hgz

/-- Witness for C6: a payload implementing both the self-encoding and the
reader capabilities takes the encoder branch (content-type logic bypassed),
and a reader is truncated to a present `Content-Length`. -/
theorem c6_witness :
    writePayload (.iface (some ⟨[1, 2], some "enc failed"⟩) (some [9, 9, 9]) false
        ⟨[7], none, [8], none⟩) [] [("Content-Type", "application/xml")]
      = ([1, 2], some "enc failed")
    ∧ writePayload (.iface none (some [4, 5, 6]) false ⟨[7], none, [8], none⟩)
        [("Content-Length", "2")] [] = ([4, 5], none) := by
  constructor
  · exact c6_payload_precedence.2.2.1 ⟨[1, 2], some "enc failed"⟩ (some [9, 9, 9]) false
      ⟨[7], none, [8], none⟩ [] [("Content-Type", "application/xml")]
  · have h := c6_payload_precedence.2.2.2.2.1 [4, 5, 6] false ⟨[7], none, [8], none⟩
      [("Content-Length", "2")] [] 2 (by decide) (by decide) (by decide)
    rw [h]
    decide

/-- Counterexample for C7 as stated: for an empty-payload response built by
`NewResponse()`, `Write` still applies the accumulated headers — including
the constructor's default `Content-Type: application/json` — to the output,
so a content type is present on the output. -/
theorem c7_counterexample :
    ¬ (hget (respWrite (newResponse none) {} {}).1.headers "Content-Type" = "") := by
  decide

/-- C7 (amended): with an empty/absent payload, `Write` writes only the
status line and returns success — no body bytes are produced — while the
accumulated headers (which include the default `Content-Type:
application/json` set at construction) are still applied to the output. -/
theorem c7_empty_payload_amended (resp : Response) (req : Request) (w0 : WState)
    (hp : resp.payload = none) (hst : w0.status = none) :
    (respWrite resp req w0).2 = none
    ∧ (respWrite resp req w0).1.status = some resp.status
    ∧ effBody (respWrite resp req w0).1 = effBody w0
    ∧ (respWrite resp req w0).1.headers =
        (if strContains (hget req.headers "Accept-Encoding") "gzip" then
          hset (resp.header.foldl (fun hs kv => hadd hs kv.1 kv.2) w0.headers)
            "Content-Encoding" "gzip"
        else resp.header.foldl (fun hs kv => hadd hs kv.1 kv.2) w0.headers) := by
  cases hc : strContains (hget req.headers "Accept-Encoding") "gzip" <;>
    simp [respWrite, hp, hc, wh, hst, effBody]

/-- Witness for C7 (amended): `NewResponse()` with no payload writes status
200, no body, no error. -/
theorem c7_witness :
    (respWrite (newResponse none) {} {}).2 = none
    ∧ (respWrite (newResponse none) {} {}).1.status = some 200
    ∧ effBody (respWrite (newResponse none) {} {}).1 = [] := by
  have h := c7_empty_payload_amended (newResponse none) {} {} rfl rfl
  exact ⟨h.1, h.2.1, h.2.2.1⟩

/-- C8: when the request's `Accept-Encoding` contains "gzip", `Write` sets
`Content-Encoding: gzip`, routes every body byte through the gzip encoder
(nothing is written around it), and the deferred flush runs on every exit
path — error returns included, since no success hypothesis is needed — so
the decompressed body and the returned error equal those of the same
response written for a non-gzip request. -/
theorem c8_gzip_negotiation (resp : Response) (req req' : Request)
    (hgz : strContains (hget req.headers "Accept-Encoding") "gzip" = true)
    (hngz : strContains (hget req'.headers "Accept-Encoding") "gzip" = false) :
    hget (respWrite resp req ({} : WState)).1.headers "Content-Encoding" = "gzip"
    ∧ (respWrite resp req ({} : WState)).1.plain = []
    ∧ (respWrite resp req ({} : WState)).1.gzChunks.flatten
        = (respWrite resp req' ({} : WState)).1.plain
    ∧ (respWrite resp req ({} : WState)).2 = (respWrite resp req' ({} : WState)).2
    ∧ (respWrite resp req ({} : WState)).1.status
        = (respWrite resp req' ({} : WState)).1.status := by
  cases hp : resp.payload with
  | none =>
    simp [respWrite, hgz, hngz, hp, wh, hget_hset_self]
  | some p =>
    simp [respWrite, hgz, hngz, hp, wh, hget_hset_self, writePayload_ce]

/-- Witness for C8: even when the payload's encoder fails, the flushed gzip
stream holds the same bytes the plain run wrote, the error is returned, and
`Content-Encoding: gzip` is set. -/
theorem c8_witness :
    hget (respWrite (newResponse (some (.iface (some ⟨strBytes "partial", some "enc failed"⟩)
        none false ⟨[], none, [], none⟩)))
        { headers := [("Accept-Encoding", "gzip, deflate")] } {}).1.headers
      "Content-Encoding" = "gzip"
    ∧ (respWrite (newResponse (some (.iface (some ⟨strBytes "partial", some "enc failed"⟩)
        none false ⟨[], none, [], none⟩)))
        { headers := [("Accept-Encoding", "gzip, deflate")] } {}).1.gzChunks.flatten
      = (respWrite (newResponse (some (.iface (some ⟨strBytes "partial", some "enc failed"⟩)
        none false ⟨[], none, [], none⟩))) {} {}).1.plain := by
  have h := c8_gzip_negotiation
    (newResponse (some (.iface (some ⟨strBytes "partial", some "enc failed"⟩)
      none false ⟨[], none, [], none⟩)))
    { headers := [("Accept-Encoding", "gzip, deflate")] } {} (by decide) (by decide)
  exact ⟨h.1, h.2.2.1⟩

/-- Counterexample for C9 as stated: on a panicking downstream, the
recovery path emits its structured records through the apex `Trace` /
`Stop(nil)` calls, which log at info level — no fatal-level entry is
emitted. -/
theorem c9_counterexample :
    logMiddleware (fun _ ws => .panicked ws "boom") {} {} =
      .ok (wh {} 500)
        [ { level := .info, msg := "Fatal http error", hasTrace := false },
          { level := .info, msg := "Fatal http error", hasTrace := true } ]
    ∧ ∀ e ∈ [ ({ level := .info, msg := "Fatal http error", hasTrace := false } : LogEntry),
              { level := .info, msg := "Fatal http error", hasTrace := true } ],
        e.level ≠ Level.fatal := by
  exact ⟨rfl, by decide⟩

/-- C9 (amended): the logging middleware recovers any downstream panic:
`WriteHeader(500)` is invoked on the real writer (taking effect when the
downstream had not already written a header), a structured log entry
containing the stack trace is emitted — at info level via the logger's
`Trace`/`Stop`, not at fatal level — and the panic is never propagated
past the middleware. -/
theorem c9_panic_containment_amended
    (next : Request → WrappedW → DownResult) (r : Request) (w : WState)
    (ws : WrappedW) (m : String) (hp : next r { under := w } = .panicked ws m) :
    logMiddleware next r w =
      .ok (wh ws.under 500)
        [ { level := .info, msg := "Fatal http error", hasTrace := false },
          { level := .info, msg := "Fatal http error", hasTrace := true } ]
    ∧ (ws.under.status = none → (wh ws.under 500).status = some 500)
    ∧ (∀ w' m', logMiddleware next r w ≠ .panicked w' m') := by
  refine ⟨by simp [logMiddleware, hp], fun h => by simp [wh, h], ?_⟩
  intro w' m'
  simp [logMiddleware, hp]

/-- Witness for C9 (amended): a downstream that panics before writing any
header ends the request normally with a 500 on the real writer and the
info-level trace records. -/
theorem c9_witness :
    logMiddleware (fun _ ws => .panicked ws "boom") {} {} =
      .ok (wh ({} : WState) 500)
        [ { level := .info, msg := "Fatal http error", hasTrace := false },
          { level := .info, msg := "Fatal http error", hasTrace := true } ]
    ∧ (wh ({} : WState) 500).status = some 500 := by
  have h := c9_panic_containment_amended (fun _ ws => .panicked ws "boom") {} {}
    { under := {} } "boom" rfl
  exact ⟨h.1, h.2.1 rfl⟩

end AtomicApi
